import Mathlib

/-!
Shallow embedding of `src/libraries/rush-lib/src/utilities/InteractiveUpgradeUI.ts`
(the interactive dependency-upgrade menu of rush-lib), together with proofs of the
behavioural properties claimed for it.

Modelling conventions:
* JavaScript string fields that may be `undefined` are modelled as `String` with
  `""` standing for `undefined` (both are falsy and the code only tests their
  truthiness or concatenates them).
* The three status attributes that group filters compare with strict `!==`
  (`mismatch`, `notInstalled`, `bump`) keep the full distinction between
  `undefined` and a real value, as `Option Bool` / `Option Bump`.
* A filter object field is `Option (Option _)`: the outer `none` is "key not
  present in the filter object" (the JavaScript `in` operator is false), and
  `some v` is "key present, record attribute must be strictly equal to `v`"
  (so `some none` is the explicit `bump: undefined` constraint).
* The `choice()` helper's `false` sentinel, later removed by `.filter(Boolean)`,
  is embedded as `Option`, and `map choice |>.filter Boolean` as `filterMap`.
* The asynchronous prompt boundary is embedded as a sum: `upgradeInteractive`
  either short-circuits with the "up to date" message and an empty answer, or
  produces the question list that the source hands to `inquirer.prompt`.
-/

namespace InteractiveUpgradeUI

/-- Semver bump severity of an available update: `'major' | 'minor' | 'patch' | 'nonSemver'`. -/
inductive Bump where
  | major
  | minor
  | patch
  | nonSemver
deriving DecidableEq, Repr

/-- One dependency-check result (npm-check's `INpmCheckPackage`), restricted to the
fields this UI reads.  String fields use `""` for an absent value; the status
attributes keep `undefined` distinct (see the module conventions above). -/
structure INpmCheckPackage where
  moduleName : String
  installed : String
  packageJson : String
  latest : String
  homepage : String
  regError : String
  pkgError : String
  mismatch : Option Bool
  notInstalled : Option Bool
  devDependency : Option Bool
  bump : Option Bump
deriving DecidableEq, Repr

/-- The `filter` member of `IUIGroup`: for each status attribute, `none` means the
key is absent from the filter object ("don't care"); `some v` means the key is
present and the record's attribute must be strictly equal to `v`; in particular
`some none` is the explicit `bump: undefined` constraint ("must be absent"). -/
structure IUIGroupFilter where
  mismatch : Option (Option Bool)
  bump : Option (Option Bump)
  notInstalled : Option (Option Bool)
deriving DecidableEq, Repr

/-- A display group: a styled title, an optional background color, and a filter. -/
structure IUIGroup where
  title : String
  bgColor : Option String
  filter : IUIGroupFilter
deriving DecidableEq, Repr

/-- JavaScript truthiness of a `boolean | undefined` value. -/
def truthyB (o : Option Bool) : Bool :=
  match o with
  | some true => true
  | _ => false

/-- JavaScript truthiness of a string value (with `""` also standing for `undefined`). -/
def truthyS (s : String) : Bool :=
  !(s == "")

/-- JavaScript `a || b` on string values. -/
def jsOr (a b : String) : String :=
  if truthyS a then a else b

/-- `colors.green` from colors/safe: wrap in the ANSI green escape codes. -/
def colors_green (s : String) : String := "\x1b[32m" ++ s ++ "\x1b[39m"

/-- `colors.yellow`. -/
def colors_yellow (s : String) : String := "\x1b[33m" ++ s ++ "\x1b[39m"

/-- `colors.red`. -/
def colors_red (s : String) : String := "\x1b[31m" ++ s ++ "\x1b[39m"

/-- `colors.magenta`. -/
def colors_magenta (s : String) : String := "\x1b[35m" ++ s ++ "\x1b[39m"

/-- `colors.blue`. -/
def colors_blue (s : String) : String := "\x1b[34m" ++ s ++ "\x1b[39m"

/-- `colors.bold`. -/
def colors_bold (s : String) : String := "\x1b[1m" ++ s ++ "\x1b[22m"

/-- `colors.underline`. -/
def colors_underline (s : String) : String := "\x1b[4m" ++ s ++ "\x1b[24m"

/-- `colors.reset`. -/
def colors_reset (s : String) : String := "\x1b[0m" ++ s ++ "\x1b[0m"

/-- Source helper `greenUnderlineBold`. -/
def greenUnderlineBold (text : String) : String :=
  colors_underline (colors_bold (colors_green text))

/-- Source helper `yellowUnderlineBold`. -/
def yellowUnderlineBold (text : String) : String :=
  colors_underline (colors_bold (colors_yellow text))

/-- Source helper `redUnderlineBold`. -/
def redUnderlineBold (text : String) : String :=
  colors_underline (colors_bold (colors_red text))

/-- Source helper `magentaUnderlineBold`. -/
def magentaUnderlineBold (text : String) : String :=
  colors_underline (colors_bold (colors_magenta text))

/-- First entry of `UI_GROUPS`: `{ mismatch: true, bump: undefined }`. -/
def mismatchGroup : IUIGroup :=
  { title := greenUnderlineBold "Update package.json to match version installed."
    bgColor := none
    filter := { mismatch := some (some true), bump := some none, notInstalled := none } }

/-- Second entry of `UI_GROUPS`: `{ notInstalled: true, bump: undefined }`. -/
def missingGroup : IUIGroup :=
  { title := greenUnderlineBold "Missing." ++ " " ++ colors_green "You probably want these."
    bgColor := none
    filter := { mismatch := none, bump := some none, notInstalled := some (some true) } }

/-- Third entry of `UI_GROUPS`: `{ bump: 'patch' }`. -/
def patchGroup : IUIGroup :=
  { title := greenUnderlineBold "Patch Update" ++ " " ++ colors_green "Backwards-compatible bug fixes."
    bgColor := none
    filter := { mismatch := none, bump := some (some Bump.patch), notInstalled := none } }

/-- Fourth entry of `UI_GROUPS`: `{ bump: 'minor' }`. -/
def minorGroup : IUIGroup :=
  { title := yellowUnderlineBold "Minor Update" ++ " " ++ colors_yellow "New backwards-compatible features."
    bgColor := some "yellow"
    filter := { mismatch := none, bump := some (some Bump.minor), notInstalled := none } }

/-- Fifth entry of `UI_GROUPS`: `{ bump: 'major' }`. -/
def majorGroup : IUIGroup :=
  { title := redUnderlineBold "Major Update" ++ " " ++
      colors_red "Potentially breaking API changes. Use caution."
    bgColor := none
    filter := { mismatch := none, bump := some (some Bump.major), notInstalled := none } }

/-- Sixth entry of `UI_GROUPS`: `{ bump: 'nonSemver' }`. -/
def nonSemverGroup : IUIGroup :=
  { title := magentaUnderlineBold "Non-Semver" ++ " " ++
      colors_magenta "Versions less than 1.0.0, caution."
    bgColor := none
    filter := { mismatch := none, bump := some (some Bump.nonSemver), notInstalled := none } }

/-- The fixed, ordered group table `UI_GROUPS`. -/
def UI_GROUPS : List IUIGroup :=
  [mismatchGroup, missingGroup, patchGroup, minorGroup, majorGroup, nonSemverGroup]

/-- Source `label(dep)`: the five display fields of one record's table row. -/
def label (dep : INpmCheckPackage) : List String :=
  let bumpInstalled : String := if dep.bump.isSome then dep.installed else ""
  let installed : String := if truthyB dep.mismatch then dep.packageJson else bumpInstalled
  let name : String := colors_yellow dep.moduleName
  let type : String := if truthyB dep.devDependency then colors_green " devDep" else ""
  let missing : String := if truthyB dep.notInstalled then colors_red " missing" else ""
  let homepage : String := if truthyS dep.homepage then colors_blue (colors_underline dep.homepage) else ""
  [ name ++ type ++ missing
  , installed
  , if truthyS installed then ">" else ""
  , colors_bold dep.latest
  , if truthyS dep.latest then homepage else jsOr dep.regError dep.pkgError ]

/-- Source `short(dep)`: the collapsed label `"<name>@<latest>"`. -/
def short (dep : INpmCheckPackage) : String :=
  dep.moduleName ++ "@" ++ dep.latest

/-- A choice's `name` member, which is `string[]` before the table rewrite and
`string` afterwards. -/
inductive ChoiceName where
  | ofList (lines : List String)
  | ofString (s : String)
deriving DecidableEq, Repr

/-- A selectable entry wrapping one record (`IUpgradeInteractiveDepChoice`). -/
structure IUpgradeInteractiveDepChoice where
  value : INpmCheckPackage
  name : ChoiceName
  short : String
deriving DecidableEq, Repr

/-- An element of the choice table after the `false` sentinels are filtered out:
an inquirer `Separator` (its display line) or a selectable choice. -/
inductive Entry where
  | separator (line : String)
  | choice (c : IUpgradeInteractiveDepChoice)
deriving DecidableEq, Repr

/-- Source `choice(dep)`: `false` (here `none`) for an up-to-date record, otherwise
the choice wrapping the record. -/
def choice (dep : INpmCheckPackage) : Option IUpgradeInteractiveDepChoice :=
  if !truthyB dep.mismatch && !dep.bump.isSome && !truthyB dep.notInstalled then
    none
  else
    some { value := dep, name := ChoiceName.ofList (label dep), short := short dep }

/-- Source `unselectable(options?)`: a separator showing `colors.reset` of the
given title, or of `""` when no options are given. -/
def unselectable (options : Option String) : Entry :=
  Entry.separator (colors_reset (options.getD ""))

/-- One strict-equality attribute check of the group filter: `none` when the key is
absent from the filter (no constraint), otherwise `pkg` attribute `== v`. -/
def checkAttr {α : Type} [DecidableEq α] (fv : Option α) (pv : α) : Bool :=
  match fv with
  | none => true
  | some v => pv == v

/-- The record predicate inside `createChoices` (lines 121–131): the chain of
early returns `'k' in filter && pkg.k !== filter.k → false`, one per attribute,
in source order. -/
def filterPred (filter : IUIGroupFilter) (pkg : INpmCheckPackage) : Bool :=
  checkAttr filter.mismatch pkg.mismatch &&
  checkAttr filter.bump pkg.bump &&
  checkAttr filter.notInstalled pkg.notInstalled

/-- The fixed `colWidths` configuration of the source's `CliTable`. -/
def COL_WIDTHS : List Nat := [50, 10, 3, 10, 100]

/-- Modelled from the spec: one cell of the external cli-table rendering
(TableBuilder, §4.3) — content truncated and padded to the fixed column width. -/
def padTrunc (w : Nat) (s : String) : String :=
  let t : String := if w < s.length then s.take w else s
  t ++ String.mk (List.replicate (w - t.length) ' ')

/-- Modelled from the spec: one row of the external cli-table rendering with the
source's configuration — no border characters, cells padded to `COL_WIDTHS` and
joined by the single-space `middle` separator. -/
def renderRow (cells : List String) : String :=
  String.intercalate " " (List.zipWith padTrunc COL_WIDTHS cells)

/-- Modelled from the spec: `cliTable.toString().split('\n')` for the borderless
table — one rendered line per pushed row, preserving order (§4.3: "output line
count equals input row count; line i corresponds to row i"). -/
def renderTable (rows : List (List String)) : List String :=
  rows.map renderRow

/-- The row pushed into the table for a choice: its `name` member (a `string[]`
before the rewrite; a plain string would be pushed as a one-cell row). -/
def nameRows (c : IUpgradeInteractiveDepChoice) : List String :=
  match c.name with
  | ChoiceName.ofList l => l
  | ChoiceName.ofString s => [s]

/-- The `for` loop of lines 165–170: starting at index `i`, overwrite each
choice's `name` with the rendered table line at its index
(`choice.name = choicesAsATable[i]`). -/
def rewriteFrom (lines : List String) (i : Nat) :
    List IUpgradeInteractiveDepChoice → List IUpgradeInteractiveDepChoice
  | [] => []
  | c :: cs => { c with name := ChoiceName.ofString (lines.getD i "") } :: rewriteFrom lines (i + 1) cs

/-- Lines 121–135 of `createChoices`: filter the packages by the group filter,
then `map(choice).filter(Boolean)`. -/
def qualifyingChoices (packages : List INpmCheckPackage) (filter : IUIGroupFilter) :
    List IUpgradeInteractiveDepChoice :=
  (packages.filter (fun pkg => filterPred filter pkg)).filterMap choice

/-- Source `createChoices(packages, options)`: filter and wrap the records, render
their rows through the borderless table, write each rendered line back into the
same-indexed choice, and, when any choice survives, unshift the group's titled
separator and then a blank separator; otherwise return `undefined` (`none`). -/
def createChoices (packages : List INpmCheckPackage) (options : IUIGroup) : Option (List Entry) :=
  let choices := qualifyingChoices packages options.filter
  let choicesAsATable := renderTable (choices.map nameRows)
  let rewritten := rewriteFrom choicesAsATable 0 choices
  if rewritten.length > 0 then
    some (unselectable none :: unselectable (some options.title) :: rewritten.map Entry.choice)
  else
    none

/-- The answers object: the selected subset of the original records. -/
structure IDepsToUpgradeAnswers where
  packages : List INpmCheckPackage
deriving DecidableEq, Repr

/-- One inquirer question as built by `upgradeInteractive` (the `promptQuestions`
element): its name, message, type, choice list and page-size hint. -/
structure PromptQuestion where
  name : String
  message : String
  type : String
  choices : List Entry
  pageSize : Int
deriving DecidableEq, Repr

/-- The observable outcome of `upgradeInteractive` up to the asynchronous prompt
boundary: either the logged "up to date" message with the empty answer returned
directly, or the question list handed to `inquirer.prompt`. -/
inductive UpgradeOutcome where
  | upToDate (message : String) (answers : IDepsToUpgradeAnswers)
  | prompt (questions : List PromptQuestion)
deriving DecidableEq, Repr

/-- Lines 182–189: `UI_GROUPS.map(group => createChoices(pkgs, group)).filter(Boolean)`
flattened into the single choice list. -/
def concatGroups (pkgs : List INpmCheckPackage) : List Entry :=
  ((UI_GROUPS.map (fun group => createChoices pkgs group)).filterMap id).flatten

/-- Source `upgradeInteractive(pkgs)` up to the prompt boundary.  `stdoutRows` is
`process.stdout.rows`.  An empty choice list logs the up-to-date message and
returns `{ packages: [] }`; otherwise the trailing blank and instructional
separators are pushed and the question (whose `choices` member appends one more
blank separator via `.concat(unselectable())`) is handed to inquirer. -/
def upgradeInteractive (stdoutRows : Int) (pkgs : List INpmCheckPackage) : UpgradeOutcome :=
  let choices := concatGroups pkgs
  if choices.length = 0 then
    UpgradeOutcome.upToDate "All dependencies are up to date!" { packages := [] }
  else
    let choices := choices ++ [unselectable none,
      unselectable (some "Space to select. Enter to start upgrading. Control-C to cancel.")]
    UpgradeOutcome.prompt
      [ { name := "packages"
          message := "Choose which packages to upgrade"
          type := "checkbox"
          choices := choices ++ [unselectable none]
          pageSize := stdoutRows - 2 } ]

/-- The full entry list handed to the interactive prompt boundary, or `[]` when
the up-to-date short circuit is taken. -/
def handedEntries (stdoutRows : Int) (pkgs : List INpmCheckPackage) : List Entry :=
  match upgradeInteractive stdoutRows pkgs with
  | UpgradeOutcome.prompt qs => (qs.map PromptQuestion.choices).flatten
  | UpgradeOutcome.upToDate _ _ => []

/-- The selectable choices of an entry list, in order. -/
def choicesOf (l : List Entry) : List IUpgradeInteractiveDepChoice :=
  l.filterMap (fun e =>
    match e with
    | Entry.choice c => some c
    | Entry.separator _ => none)

/-- The record wrapped by an entry, when the entry is a choice. -/
def entryValue (e : Entry) : Option INpmCheckPackage :=
  match e with
  | Entry.choice c => some c.value
  | Entry.separator _ => none

/-! ### Concrete example records, used to instantiate the general theorems -/

/-- An up-to-date record: no mismatch, no bump, installed. -/
def pkgUpToDate : INpmCheckPackage :=
  { moduleName := "lodash", installed := "4.17.21", packageJson := "4.17.21"
    latest := "4.17.21", homepage := "", regError := "", pkgError := ""
    mismatch := some false, notInstalled := some false, devDependency := some false
    bump := none }

/-- A record with a major update available. -/
def pkgMajorBump : INpmCheckPackage :=
  { moduleName := "rimraf", installed := "2.0.0", packageJson := "2.0.0"
    latest := "3.0.0", homepage := "", regError := "", pkgError := ""
    mismatch := some false, notInstalled := some false, devDependency := some false
    bump := some Bump.major }

/-- A record with no status flag at all (everything `undefined`). -/
def pkgFlagless : INpmCheckPackage :=
  { moduleName := "tslib", installed := "2.6.0", packageJson := "2.6.0"
    latest := "2.6.0", homepage := "", regError := "", pkgError := ""
    mismatch := none, notInstalled := none, devDependency := none
    bump := none }

/-- A record whose manifest version mismatches the installed one (no bump). -/
def pkgMismatchOnly : INpmCheckPackage :=
  { moduleName := "left-pad", installed := "1.0.0", packageJson := "1.1.0"
    latest := "1.2.0", homepage := "", regError := "", pkgError := ""
    mismatch := some true, notInstalled := some false, devDependency := some false
    bump := none }

/-- A record that is both mismatched and missing, with no bump: it matches the
filters of the first two groups simultaneously. -/
def pkgMismatchAndMissing : INpmCheckPackage :=
  { moduleName := "chalk", installed := "", packageJson := "5.0.0"
    latest := "5.3.0", homepage := "", regError := "", pkgError := ""
    mismatch := some true, notInstalled := some true, devDependency := some false
    bump := none }

/-! ### Helper lemmas -/

/-- A successfully built choice is the canonical wrapper of its record. -/
lemma choice_eq_some {dep : INpmCheckPackage} {c : IUpgradeInteractiveDepChoice}
    (h : choice dep = some c) :
    c = { value := dep, name := ChoiceName.ofList (label dep), short := short dep } := by
  unfold choice at h
  split at h
  · exact absurd h (by simp)
  · exact (Option.some.inj h).symm

/-- The record wrapped by a built choice is the record itself. -/
lemma choice_value {dep : INpmCheckPackage} {c : IUpgradeInteractiveDepChoice}
    (h : choice dep = some c) : c.value = dep := by
  rw [choice_eq_some h]

/-- The label rewrite loop preserves the number of choices. -/
lemma length_rewriteFrom (lines : List String) (i : Nat)
    (cs : List IUpgradeInteractiveDepChoice) :
    (rewriteFrom lines i cs).length = cs.length := by
  induction cs generalizing i with
  | nil => rfl
  | cons c cs ih => simp [rewriteFrom, ih]

/-- The label rewrite loop is index-aligned: position `j` of the result is the
input choice at position `j` with its name replaced by table line `i + j`. -/
lemma getElem?_rewriteFrom (lines : List String) (i : Nat)
    (cs : List IUpgradeInteractiveDepChoice) (j : Nat) :
    (rewriteFrom lines i cs)[j]? =
      cs[j]?.map (fun c => { c with name := ChoiceName.ofString (lines.getD (i + j) "") }) := by
  induction cs generalizing i j with
  | nil => simp [rewriteFrom]
  | cons c cs ih =>
    cases j with
    | zero => simp [rewriteFrom]
    | succ j =>
      show ({ c with name := ChoiceName.ofString (lines.getD i "") } ::
        rewriteFrom lines (i + 1) cs)[j + 1]? = _
      rw [List.getElem?_cons_succ, List.getElem?_cons_succ, ih (i + 1) j]
      have harith : i + 1 + j = i + (j + 1) := by omega
      rw [harith]

/-- The label rewrite loop does not touch the wrapped records. -/
lemma map_value_rewriteFrom (lines : List String) (i : Nat)
    (cs : List IUpgradeInteractiveDepChoice) :
    (rewriteFrom lines i cs).map IUpgradeInteractiveDepChoice.value =
      cs.map IUpgradeInteractiveDepChoice.value := by
  induction cs generalizing i with
  | nil => rfl
  | cons c cs ih => simp [rewriteFrom, ih]

/-- Members of the rewrite loop's output agree with some input choice on every
field but the name. -/
lemma mem_rewriteFrom {lines : List String} {i : Nat}
    {cs : List IUpgradeInteractiveDepChoice} {c : IUpgradeInteractiveDepChoice}
    (h : c ∈ rewriteFrom lines i cs) :
    ∃ c0 ∈ cs, c.value = c0.value ∧ c.short = c0.short := by
  induction cs generalizing i with
  | nil => cases h
  | cons c0 cs ih =>
    rcases List.mem_cons.mp h with h | h
    · exact ⟨c0, List.mem_cons_self c0 cs, by rw [h], by rw [h]⟩
    · obtain ⟨c1, hc1, hv, hs⟩ := ih h
      exact ⟨c1, List.mem_cons_of_mem c0 hc1, hv, hs⟩

/-- Membership in the selectable choices of an entry list. -/
lemma mem_choicesOf {c : IUpgradeInteractiveDepChoice} {l : List Entry} :
    c ∈ choicesOf l ↔ Entry.choice c ∈ l := by
  unfold choicesOf
  rw [List.mem_filterMap]
  constructor
  · rintro ⟨e, he, h⟩
    cases e with
    | separator s => exact absurd h (by simp)
    | choice c' => simp only [Option.some.injEq] at h; rwa [← h]
  · intro h
    exact ⟨Entry.choice c, h, rfl⟩

/-- `choicesOf` distributes over append. -/
lemma choicesOf_append (a b : List Entry) :
    choicesOf (a ++ b) = choicesOf a ++ choicesOf b := by
  unfold choicesOf
  exact List.filterMap_append a b _

/-- A list of wrapped choices has exactly those choices. -/
lemma choicesOf_map_choice (l : List IUpgradeInteractiveDepChoice) :
    choicesOf (l.map Entry.choice) = l := by
  induction l with
  | nil => rfl
  | cons c cs ih => simp only [List.map_cons, choicesOf, List.filterMap_cons] at ih ⊢; rw [ih]

/-- Characterization of `createChoices`: `none` exactly when no record of the
group qualifies, otherwise the blank separator, the titled separator, and the
rewritten choices. -/
lemma createChoices_characterization (pkgs : List INpmCheckPackage) (g : IUIGroup) :
    createChoices pkgs g =
      if qualifyingChoices pkgs g.filter = [] then none
      else some (unselectable none :: unselectable (some g.title) ::
        (rewriteFrom (renderTable ((qualifyingChoices pkgs g.filter).map nameRows)) 0
          (qualifyingChoices pkgs g.filter)).map Entry.choice) := by
  unfold createChoices
  by_cases h : qualifyingChoices pkgs g.filter = []
  · rw [if_pos h, h]
    simp [rewriteFrom]
  · rw [if_neg h]
    have hlen : 0 < (rewriteFrom (renderTable ((qualifyingChoices pkgs g.filter).map nameRows)) 0
        (qualifyingChoices pkgs g.filter)).length := by
      rw [length_rewriteFrom]
      exact List.length_pos.mpr h
    simp only [if_pos hlen]

/-- The selectable choices of a group's output are exactly the rewritten
qualifying choices. -/
lemma choicesOf_createChoices (pkgs : List INpmCheckPackage) (g : IUIGroup) :
    choicesOf ((createChoices pkgs g).getD []) =
      rewriteFrom (renderTable ((qualifyingChoices pkgs g.filter).map nameRows)) 0
        (qualifyingChoices pkgs g.filter) := by
  rw [createChoices_characterization]
  by_cases h : qualifyingChoices pkgs g.filter = []
  · rw [if_pos h, h]
    simp [choicesOf, rewriteFrom]
  · rw [if_neg h]
    simp only [Option.getD_some, choicesOf, List.filterMap_cons]
    exact choicesOf_map_choice _

/-- The wrapped records of the choices built by `map(choice).filter(Boolean)` are
the records for which `choice` succeeds, in order. -/
lemma map_value_filterMap_choice (l : List INpmCheckPackage) :
    (l.filterMap choice).map IUpgradeInteractiveDepChoice.value =
      l.filter (fun p => (choice p).isSome) := by
  induction l with
  | nil => rfl
  | cons p l ih =>
    cases hc : choice p with
    | none => simp [List.filterMap_cons, hc, List.filter_cons, ih]
    | some c =>
      simp [List.filterMap_cons, hc, List.filter_cons, ih, choice_value hc]

/-- Flattening step for one group's optional output. -/
lemma flatten_filterMap_id_cons {α : Type} (o : Option (List α)) (l : List (Option (List α))) :
    (((o :: l).filterMap id).flatten : List α) = o.getD [] ++ (l.filterMap id).flatten := by
  cases o <;> simp [List.filterMap_cons]

/-- `concatGroups` is the concatenation of the six groups' outputs, in their
declaration order. -/
lemma concatGroups_eq (pkgs : List INpmCheckPackage) :
    concatGroups pkgs =
      (createChoices pkgs mismatchGroup).getD [] ++
      (createChoices pkgs missingGroup).getD [] ++
      (createChoices pkgs patchGroup).getD [] ++
      (createChoices pkgs minorGroup).getD [] ++
      (createChoices pkgs majorGroup).getD [] ++
      (createChoices pkgs nonSemverGroup).getD [] := by
  unfold concatGroups UI_GROUPS
  simp only [List.map_cons, List.map_nil, flatten_filterMap_id_cons, List.filterMap_nil,
    List.flatten_nil, List.append_nil, List.append_assoc]

/-- The list handed to the prompt boundary: empty on the short circuit, otherwise
the concatenated groups followed by the blank, instructional, and final blank
separators. -/
lemma handedEntries_eq (stdoutRows : Int) (pkgs : List INpmCheckPackage) :
    handedEntries stdoutRows pkgs =
      if concatGroups pkgs = [] then []
      else concatGroups pkgs ++ [unselectable none,
        unselectable (some "Space to select. Enter to start upgrading. Control-C to cancel."),
        unselectable none] := by
  unfold handedEntries upgradeInteractive
  by_cases h : concatGroups pkgs = []
  · simp [h]
  · have hl : ¬((concatGroups pkgs).length = 0) := by
      simpa [List.length_eq_zero] using h
    simp [h, hl, List.append_assoc]

/-- Separators do not contribute selectable choices: the choices handed to the
boundary are the choices of the concatenated groups. -/
lemma choicesOf_handedEntries (stdoutRows : Int) (pkgs : List INpmCheckPackage) :
    choicesOf (handedEntries stdoutRows pkgs) = choicesOf (concatGroups pkgs) := by
  rw [handedEntries_eq]
  by_cases h : concatGroups pkgs = []
  · rw [if_pos h, h]
  · rw [if_neg h, choicesOf_append]
    simp [choicesOf, unselectable]

/-- A selectable choice of a group's output comes from a qualifying choice of that
group, agreeing with it outside the name field. -/
lemma createChoices_mem_choice {pkgs : List INpmCheckPackage} {g : IUIGroup}
    {l : List Entry} {c : IUpgradeInteractiveDepChoice}
    (hl : createChoices pkgs g = some l) (hc : Entry.choice c ∈ l) :
    ∃ c0 ∈ qualifyingChoices pkgs g.filter, c.value = c0.value ∧ c.short = c0.short := by
  rw [createChoices_characterization] at hl
  by_cases h : qualifyingChoices pkgs g.filter = []
  · rw [if_pos h] at hl; cases hl
  · rw [if_neg h] at hl
    injection hl with hl
    rw [← hl] at hc
    rcases List.mem_cons.mp hc with h1 | hc
    · exact absurd h1 (by simp [unselectable])
    rcases List.mem_cons.mp hc with h2 | hc
    · exact absurd h2 (by simp [unselectable])
    obtain ⟨c', hc', he⟩ := List.mem_map.mp hc
    injection he with he
    rw [he] at hc'
    exact mem_rewriteFrom hc'

/-- Every selectable choice of the concatenated group list wraps one of the input
records, with the collapsed label built from that record, and the record passes
the `choice` qualification. -/
lemma mem_choicesOf_concatGroups {pkgs : List INpmCheckPackage}
    {c : IUpgradeInteractiveDepChoice} (h : c ∈ choicesOf (concatGroups pkgs)) :
    ∃ p ∈ pkgs, c.value = p ∧ c.short = short p ∧ (choice p).isSome := by
  rw [mem_choicesOf] at h
  unfold concatGroups at h
  rw [List.mem_flatten] at h
  obtain ⟨l, hl, hcl⟩ := h
  rw [List.mem_filterMap] at hl
  obtain ⟨o, ho, hol⟩ := hl
  rw [List.mem_map] at ho
  obtain ⟨g, hg, hgo⟩ := ho
  have hcg : createChoices pkgs g = some l := hgo.trans hol
  obtain ⟨c0, hc0, hv, hs⟩ := createChoices_mem_choice hcg hcl
  unfold qualifyingChoices at hc0
  rw [List.mem_filterMap] at hc0
  obtain ⟨p, hp, hchoice⟩ := hc0
  have hps := choice_eq_some hchoice
  refine ⟨p, List.mem_of_mem_filter hp, ?_, ?_, ?_⟩
  · rw [hv, hps]
  · rw [hs, hps]
  · rw [hchoice]; rfl

/-- Every selectable choice handed to the prompt boundary wraps one of the input
records. -/
lemma mem_choicesOf_handedEntries {stdoutRows : Int} {pkgs : List INpmCheckPackage}
    {c : IUpgradeInteractiveDepChoice} (h : c ∈ choicesOf (handedEntries stdoutRows pkgs)) :
    ∃ p ∈ pkgs, c.value = p ∧ c.short = short p ∧ (choice p).isSome := by
  rw [choicesOf_handedEntries] at h
  exact mem_choicesOf_concatGroups h

/-- The wrapped records of a group's qualifying choices are exactly the input
records that both match the group filter and pass the `choice` qualification,
in input order. -/
lemma map_value_qualifying (pkgs : List INpmCheckPackage) (f : IUIGroupFilter) :
    (qualifyingChoices pkgs f).map IUpgradeInteractiveDepChoice.value =
      pkgs.filter (fun p => filterPred f p && (choice p).isSome) := by
  unfold qualifyingChoices
  rw [map_value_filterMap_choice, List.filter_filter]
  exact List.filter_congr (fun a _ => by rw [Bool.and_comm])

/-- No record of the input qualifies for the filter: the qualifying choice list
is empty. -/
lemma qualifyingChoices_eq_nil {pkgs : List INpmCheckPackage} {f : IUIGroupFilter}
    (h : ∀ p ∈ pkgs, ¬(filterPred f p && (choice p).isSome) = true) :
    qualifyingChoices pkgs f = [] := by
  have hm := map_value_qualifying pkgs f
  have hf : pkgs.filter (fun p => filterPred f p && (choice p).isSome) = [] :=
    List.filter_eq_nil_iff.mpr h
  rw [hf] at hm
  exact List.map_eq_nil_iff.mp hm

/-- When every group's output is `undefined`, the concatenated choice list is
empty. -/
lemma concatGroups_nil_of_none {pkgs : List INpmCheckPackage}
    (h : ∀ g ∈ UI_GROUPS, createChoices pkgs g = none) :
    concatGroups pkgs = [] := by
  unfold concatGroups
  have hstep : ∀ gs : List IUIGroup, (∀ g ∈ gs, createChoices pkgs g = none) →
      ((gs.map (fun group => createChoices pkgs group)).filterMap id).flatten = ([] : List Entry) := by
    intro gs
    induction gs with
    | nil => intro _; rfl
    | cons g gs ih =>
      intro hgs
      have h1 : createChoices pkgs g = none := hgs g (List.mem_cons_self g gs)
      simp only [List.map_cons, List.filterMap_cons, h1, id]
      exact ih (fun g' hg' => hgs g' (List.mem_cons_of_mem g hg'))
  exact hstep UI_GROUPS h

/-! ### The claims -/

/-- C1: a record is included in a group's filtered subset iff, for each status
attribute key present in the filter object (`mismatch`, `bump`, `notInstalled`),
the record's value for that attribute is strictly equal to the filter's value.
A key present with value `undefined` forces the attribute to be absent, a key
entirely missing imposes no constraint, and a filter with zero attributes
matches every record (all three conjuncts are then vacuous). -/
theorem c1_filter_exact_match (packages : List INpmCheckPackage) (f : IUIGroupFilter)
    (pkg : INpmCheckPackage) :
    pkg ∈ packages.filter (fun p => filterPred f p) ↔
      pkg ∈ packages ∧
        (∀ v, f.mismatch = some v → pkg.mismatch = v) ∧
        (∀ v, f.bump = some v → pkg.bump = v) ∧
        (∀ v, f.notInstalled = some v → pkg.notInstalled = v) := by
  rw [List.mem_filter]
  refine and_congr_right fun _ => ?_
  rcases f with ⟨fm, fb, fn⟩
  cases fm <;> cases fb <;> cases fn <;> simp [filterPred, checkAttr, and_assoc]

/-- C2: a record with none of `mismatch` set, `bump` set, or `notInstalled` set
produces no Choice (`choice` returns the `false` sentinel), and no entry handed
to the prompt boundary wraps it. -/
theorem c2_up_to_date_record_excluded (stdoutRows : Int) (pkgs : List INpmCheckPackage)
    (r : INpmCheckPackage)
    (h : truthyB r.mismatch = false ∧ r.bump = none ∧ truthyB r.notInstalled = false) :
    choice r = none ∧
      (choicesOf (handedEntries stdoutRows pkgs)).all (fun c => !(c.value == r)) = true := by
  obtain ⟨h1, h2, h3⟩ := h
  have hr : choice r = none := by
    simp [choice, h1, h2, h3]
  refine ⟨hr, ?_⟩
  rw [List.all_eq_true]
  intro c hc
  obtain ⟨p, hp, hv, hs, hsome⟩ := mem_choicesOf_handedEntries hc
  have hne : c.value ≠ r := by
    intro hcr
    have hpr : p = r := hv.symm.trans hcr
    rw [hpr, hr] at hsome
    simp at hsome
  simp [hne]

/-- Witness for C2: the up-to-date record produces no choice and is absent from
the prompt list built over a two-record input. -/
theorem c2_up_to_date_record_excluded_witness :
    (truthyB pkgUpToDate.mismatch = false ∧ pkgUpToDate.bump = none ∧
        truthyB pkgUpToDate.notInstalled = false) ∧
      (choice pkgUpToDate = none ∧
        (choicesOf (handedEntries 30 [pkgUpToDate, pkgMajorBump])).all
          (fun c => !(c.value == pkgUpToDate)) = true) :=
  ⟨by decide, c2_up_to_date_record_excluded 30 [pkgUpToDate, pkgMajorBump] pkgUpToDate (by decide)⟩

/-- C3: a group's assembled output has exactly as many Choices as the group's
filtered-and-qualifying record subset, and the Choice at position `i` carries as
its label the rendered table line at position `i` of the table built from that
subset — the table-line rewrite is index-aligned. -/
theorem c3_table_rewrite_index_aligned (pkgs : List INpmCheckPackage) (g : IUIGroup) :
    (choicesOf ((createChoices pkgs g).getD [])).length =
        (qualifyingChoices pkgs g.filter).length ∧
      ∀ i : Nat,
        (choicesOf ((createChoices pkgs g).getD []))[i]? =
          ((qualifyingChoices pkgs g.filter)[i]?).map
            (fun c => { c with name := ChoiceName.ofString ((renderTable ((qualifyingChoices pkgs g.filter).map nameRows)).getD i "") }) := by
  rw [choicesOf_createChoices]
  refine ⟨length_rewriteFrom _ _ _, fun i => ?_⟩
  have h := getElem?_rewriteFrom (renderTable ((qualifyingChoices pkgs g.filter).map nameRows)) 0
    (qualifyingChoices pkgs g.filter) i
  simpa using h

/-- C4: the final choice list concatenates the groups in their fixed declaration
order — mismatch, missing, patch, minor, major, non-semver — regardless of the
input record order, and within any group the Choices wrap exactly the matching,
qualifying input records in their original relative order. -/
theorem c4_fixed_group_order (pkgs : List INpmCheckPackage) :
    concatGroups pkgs =
        (createChoices pkgs mismatchGroup).getD [] ++
        (createChoices pkgs missingGroup).getD [] ++
        (createChoices pkgs patchGroup).getD [] ++
        (createChoices pkgs minorGroup).getD [] ++
        (createChoices pkgs majorGroup).getD [] ++
        (createChoices pkgs nonSemverGroup).getD [] ∧
      ∀ g : IUIGroup,
        (choicesOf ((createChoices pkgs g).getD [])).map IUpgradeInteractiveDepChoice.value =
          pkgs.filter (fun p => filterPred g.filter p && (choice p).isSome) := by
  refine ⟨concatGroups_eq pkgs, fun g => ?_⟩
  rw [choicesOf_createChoices, map_value_rewriteFrom, map_value_qualifying]

/-- C5: a group whose filtered-and-qualifying Choice list is non-empty outputs
exactly a blank separator, then the titled separator carrying the group's title,
then the Choices; a group whose Choice list is empty outputs `undefined` and so
contributes zero entries to the final list. -/
theorem c5_group_section_shape (pkgs : List INpmCheckPackage) (g : IUIGroup) :
    createChoices pkgs g =
      if qualifyingChoices pkgs g.filter = [] then none
      else some (unselectable none :: unselectable (some g.title) :: (rewriteFrom (renderTable ((qualifyingChoices pkgs g.filter).map nameRows)) 0 (qualifyingChoices pkgs g.filter)).map Entry.choice) :=
  createChoices_characterization pkgs g

/-- C6: when no record qualifies for any group, `upgradeInteractive` emits the
single status line, returns the empty selection `{ packages: [] }`, and never
reaches the interactive prompt boundary. -/
theorem c6_no_qualifying_short_circuit (stdoutRows : Int) (pkgs : List INpmCheckPackage)
    (h : pkgs.all (fun p => UI_GROUPS.all
      (fun g => !(filterPred g.filter p && (choice p).isSome))) = true) :
    upgradeInteractive stdoutRows pkgs =
      UpgradeOutcome.upToDate "All dependencies are up to date!" { packages := [] } := by
  have hnone : ∀ g ∈ UI_GROUPS, createChoices pkgs g = none := by
    intro g hg
    have hq : qualifyingChoices pkgs g.filter = [] := by
      apply qualifyingChoices_eq_nil
      intro p hp
      have hall := (List.all_eq_true.mp h) p hp
      have hone := (List.all_eq_true.mp hall) g hg
      simp only [Bool.not_eq_true'] at hone
      simp [hone]
    rw [createChoices_characterization, if_pos hq]
  have hcat := concatGroups_nil_of_none hnone
  simp [upgradeInteractive, hcat]

/-- Witness for C6: a single record with every status attribute `undefined`
qualifies for no group; the call short-circuits. -/
theorem c6_no_qualifying_short_circuit_witness :
    ([pkgFlagless].all (fun p => UI_GROUPS.all
        (fun g => !(filterPred g.filter p && (choice p).isSome))) = true) ∧
      upgradeInteractive 24 [pkgFlagless] =
        UpgradeOutcome.upToDate "All dependencies are up to date!" { packages := [] } :=
  ⟨by decide, c6_no_qualifying_short_circuit 24 [pkgFlagless] (by decide)⟩

set_option maxRecDepth 4000 in
/-- Counterexample to C7 as stated: for a one-record input with a mismatch, the
list handed to the prompt boundary is NOT the concatenated group entries
followed by exactly the blank and instructional separators — the source's
`choices.concat(unselectable())` appends one further blank separator after the
instructional one. -/
theorem c7_counterexample :
    ¬(handedEntries 30 [pkgMismatchOnly] =
        concatGroups [pkgMismatchOnly] ++ [unselectable none,
          unselectable (some "Space to select. Enter to start upgrading. Control-C to cancel.")]) := by
  decide

/-- C7 (amended): for every input whose concatenated group output is non-empty,
the list handed to the interactive prompt boundary is the concatenated group
entries followed by a trailing blank separator, the instructional separator, and
one final blank separator (appended by `.concat(unselectable())`), and nothing
else. -/
theorem c7_trailing_separators (stdoutRows : Int) (pkgs : List INpmCheckPackage)
    (h : concatGroups pkgs ≠ []) :
    handedEntries stdoutRows pkgs =
      concatGroups pkgs ++ [unselectable none,
        unselectable (some "Space to select. Enter to start upgrading. Control-C to cancel."),
        unselectable none] := by
  rw [handedEntries_eq, if_neg h]

set_option maxRecDepth 4000 in
/-- Witness for the amended C7 at a concrete one-record input. -/
theorem c7_trailing_separators_witness :
    concatGroups [pkgMismatchOnly] ≠ [] ∧
      handedEntries 30 [pkgMismatchOnly] =
        concatGroups [pkgMismatchOnly] ++ [unselectable none,
          unselectable (some "Space to select. Enter to start upgrading. Control-C to cancel."),
          unselectable none] :=
  ⟨by decide, c7_trailing_separators 30 [pkgMismatchOnly] (by decide)⟩

/-- C8: the formatter emits exactly five fields, in order: the decorated name
with conditional devDependency and missing tags; the manifest (`packageJson`)
version if `mismatch` is set, else the installed version if `bump` is set, else
empty; the ">" marker iff that version field is non-empty; the decorated latest
version; and the homepage link when a latest version exists, otherwise the
registry or package error. The short label is `name@latest`. -/
theorem c8_label_fields (dep : INpmCheckPackage) :
    (label dep).length = 5 ∧
    (label dep)[0]? = some (colors_yellow dep.moduleName ++ (if truthyB dep.devDependency then colors_green " devDep" else "") ++ (if truthyB dep.notInstalled then colors_red " missing" else "")) ∧
    (label dep)[1]? = some (if truthyB dep.mismatch then dep.packageJson else if dep.bump.isSome then dep.installed else "") ∧
    ((label dep)[2]? = some ">" ↔ ¬((label dep)[1]? = some "")) ∧
    ((label dep)[2]? = some ">" ∨ (label dep)[2]? = some "") ∧
    (label dep)[3]? = some (colors_bold dep.latest) ∧
    (label dep)[4]? = some (if truthyS dep.latest then (if truthyS dep.homepage then colors_blue (colors_underline dep.homepage) else "") else jsOr dep.regError dep.pkgError) ∧
    short dep = dep.moduleName ++ "@" ++ dep.latest := by
  have key : ∀ s : String,
      ((some (if truthyS s then ">" else "") = some ">") ↔ ¬((some s : Option String) = some "")) ∧
        (some (if truthyS s then ">" else "") = some ">" ∨
          some (if truthyS s then ">" else "") = some "") := by
    intro s
    by_cases hs : s = ""
    · subst hs; simp [truthyS]
    · simp [truthyS, hs]
  exact ⟨rfl, rfl, rfl, (key _).1, (key _).2, rfl, rfl, rfl⟩

/-- C9: the pipeline does not mutate the input records — every Choice handed to
the prompt boundary wraps one of the original input records unchanged, and the
table-line rewrite changed only the Choice's name field: the record still
produces exactly this Choice's value and short label via `choice`. -/
theorem c9_records_not_mutated (stdoutRows : Int) (pkgs : List INpmCheckPackage) :
    (choicesOf (handedEntries stdoutRows pkgs)).all
      (fun c => decide (c.value ∈ pkgs) &&
        (choice c.value == some { value := c.value, name := ChoiceName.ofList (label c.value), short := c.short })) = true := by
  rw [List.all_eq_true]
  intro c hc
  obtain ⟨p, hp, hv, hs, hsome⟩ := mem_choicesOf_handedEntries hc
  have h1 : c.value ∈ pkgs := by rw [hv]; exact hp
  have h2 : choice c.value =
      some { value := c.value, name := ChoiceName.ofList (label c.value), short := c.short } := by
    rw [hv, hs]
    cases hcp : choice p with
    | none => rw [hcp] at hsome; simp at hsome
    | some c0 => rw [choice_eq_some hcp]
  simp [h1, h2]

set_option maxRecDepth 8000 in
/-- C10: the group filters are not mutually exclusive — a record with `mismatch`
and `notInstalled` both true and `bump` absent matches the mismatch group and
the missing group at once, so the final list contains two Choices wrapping that
same record, each under its own (distinct) section title. -/
theorem c10_groups_overlap :
    ((choicesOf (handedEntries 30 [pkgMismatchAndMissing])).map IUpgradeInteractiveDepChoice.value = [pkgMismatchAndMissing, pkgMismatchAndMissing]) ∧
      (handedEntries 30 [pkgMismatchAndMissing])[1]? = some (unselectable (some mismatchGroup.title)) ∧
      (handedEntries 30 [pkgMismatchAndMissing])[4]? = some (unselectable (some missingGroup.title)) ∧
      ((handedEntries 30 [pkgMismatchAndMissing])[2]?).bind entryValue = some pkgMismatchAndMissing ∧
      ((handedEntries 30 [pkgMismatchAndMissing])[5]?).bind entryValue = some pkgMismatchAndMissing ∧
      mismatchGroup.title ≠ missingGroup.title := by
  decide

end InteractiveUpgradeUI
